import Mathlib

/-!
Verification of the Deep Research Agent repository
(`crew_ai/src/latest_ai_development`).

The development shallowly embeds the parts of the code the specification
talks about:

* the SSE status relay of `api.py` (`status_queue`,
  `status_event_generator`, `run_crew_with_status`, `stream_research`);
* the three-phase controller of `main.py` (`run`);
* the claim extractor of `tools/analysis/claim_extractor.py`
  (`ClaimExtractorTool.execute`, `_split_into_sentences`,
  `_identify_claim_type`, regular-expression helpers);
* the confidence policy of `tools/analysis/fact_checker.py`
  (`FactCheckerTool._determine_confidence`).

Python floats that only ever hold decimal fractions and are compared with
exact thresholds are modelled as rationals; Python strings as Lean
strings; the `asyncio` queue as the list of events it holds, in FIFO
order; each awaited `asyncio.wait_for` of the generator as one
`WaitOutcome` (the event delivered, a timeout, or an exception raised
while consuming).
-/

/-! ## Status events (api.py)

A status update is a Python dict with a `"type"` key and free-form string
payload fields (`message`, `result`, `details`, `agent`).  Fields that are
absent in a given `status_queue.put` call are the empty string.  -/

structure Event where
  type : String
  message : String := ""
  agent : String := ""
  result : String := ""
  details : String := ""
  deriving DecidableEq, Repr

/-- One completed `await` inside `status_event_generator`'s `while True`
loop: `asyncio.wait_for(status_queue.get(), timeout=30.0)` either returns
the next queued event, raises `asyncio.TimeoutError` after 30 time units,
or some other exception escapes while consuming. -/
inductive WaitOutcome where
  | event (e : Event)
  | timeout
  | exn (msg : String)
  deriving DecidableEq, Repr

/-- One `yield` of `status_event_generator`: either the SSE frame
`data: {json.dumps(status)}\n\n` carrying a serialized event, or the
keepalive heartbeat frame `: keepalive\n\n`. -/
inductive Yield where
  | data (e : Event)
  | keepalive
  deriving DecidableEq, Repr

/-- The event put on the queue by the generator itself when an internal
exception `e` is caught: `{'type': 'error', 'message': str(e)}`
(api.py line 70). -/
def caughtErrorEvent (msg : String) : Event :=
  { type := "error", message := msg }

/-- Embeds `status_event_generator` (api.py lines 51-71) as the list of frames
it yields for a given finite sequence of wait outcomes.  For each
delivered event it yields the serialized event and breaks after a
`done`-typed one; a timeout yields one keepalive and the loop continues;
any other exception yields one final serialized `error` event and
breaks. -/
def status_event_generator : List WaitOutcome → List Yield
  | [] => []
  | .event e :: rest =>
      if e.type = "done" then [.data e]
      else .data e :: status_event_generator rest
  | .timeout :: rest => .keepalive :: status_event_generator rest
  | .exn msg :: _ => [.data (caughtErrorEvent msg)]

/-- A wait outcome after which the generator's loop keeps running: a
delivered event that is not `done`, or a timeout. -/
def nonTerminal : WaitOutcome → Bool
  | .event e => !(e.type == "done")
  | .timeout => true
  | .exn _ => false

/-- The prefix of an event sequence up to and including its first
`done`-typed event (the whole sequence if none).  This is the
specification-side description of what the consumer should relay. -/
def takeThroughFirstDone : List Event → List Event
  | [] => []
  | e :: rest =>
      if e.type = "done" then [e]
      else e :: takeThroughFirstDone rest

theorem status_event_generator_append (outs₁ outs₂ : List WaitOutcome)
    (h : outs₁.all nonTerminal = true) :
    status_event_generator (outs₁ ++ outs₂) =
      status_event_generator outs₁ ++ status_event_generator outs₂ := by
  induction outs₁ with
  | nil => simp [status_event_generator]
  | cons o rest ih =>
      rw [List.all_cons, Bool.and_eq_true] at h
      obtain ⟨ho, hrest⟩ := h
      cases o with
      | event e =>
          have hne : ¬ e.type = "done" := by
            simpa [nonTerminal] using ho
          simp [status_event_generator, hne, ih hrest]
      | timeout => simp [status_event_generator, ih hrest]
      | exn msg => simp [nonTerminal] at ho

/-- C1: For every sequence of events put on the status queue, the SSE
consumer generator yields the serialized events in exactly the order they
were enqueued (strict FIFO), and after yielding the first event whose
type is `done` it terminates immediately, never yielding any further
event. -/
theorem consumer_fifo_stops_at_done (es : List Event) :
    status_event_generator (es.map .event) =
      (takeThroughFirstDone es).map Yield.data := by
  induction es with
  | nil => simp [status_event_generator, takeThroughFirstDone]
  | cons e rest ih =>
      by_cases h : e.type = "done" <;>
        simp [status_event_generator, takeThroughFirstDone, h, ih]

/-- C3: If no event arrives on the status queue within one timeout window
(30 time units), the consumer generator emits exactly one heartbeat
placeholder and then resumes waiting for the next outcomes; the timeout
is never terminal. -/
theorem timeout_one_heartbeat_then_resume
    (outs₁ outs₂ : List WaitOutcome) (h : outs₁.all nonTerminal = true) :
    status_event_generator (outs₁ ++ .timeout :: outs₂) =
      status_event_generator outs₁ ++
        .keepalive :: status_event_generator outs₂ := by
  rw [status_event_generator_append outs₁ (.timeout :: outs₂) h]
  rfl

theorem timeout_one_heartbeat_then_resume_witness :
    ([WaitOutcome.event { type := "started" }].all nonTerminal = true) ∧
    status_event_generator
        ([WaitOutcome.event { type := "started" }] ++
          .timeout :: [.event { type := "done" }]) =
      status_event_generator [WaitOutcome.event { type := "started" }] ++
        .keepalive ::
          status_event_generator [WaitOutcome.event { type := "done" }] :=
  ⟨by decide,
   timeout_one_heartbeat_then_resume
     [WaitOutcome.event { type := "started" }]
     [.event { type := "done" }] (by decide)⟩

/-- C4: For every internal exception raised while the consumer generator
is consuming (other than the timeout), the exception is converted into
exactly one final serialized `error` event after which the stream
terminates (nothing of `outs₂` is ever reached); the exception is never
propagated out of the generator — `status_event_generator` is a total
function into yielded frames. -/
theorem exception_one_final_error_event
    (outs₁ : List WaitOutcome) (msg : String) (outs₂ : List WaitOutcome)
    (h : outs₁.all nonTerminal = true) :
    status_event_generator (outs₁ ++ .exn msg :: outs₂) =
      status_event_generator outs₁ ++ [.data (caughtErrorEvent msg)] := by
  rw [status_event_generator_append outs₁ (.exn msg :: outs₂) h]
  rfl

theorem exception_one_final_error_event_witness :
    ([WaitOutcome.timeout].all nonTerminal = true) ∧
    status_event_generator
        ([WaitOutcome.timeout] ++
          .exn "boom" :: [.event { type := "completed" }]) =
      status_event_generator [WaitOutcome.timeout] ++
        [.data (caughtErrorEvent "boom")] :=
  ⟨by decide,
   exception_one_final_error_event [WaitOutcome.timeout] "boom"
     [.event { type := "completed" }] (by decide)⟩

/-! ## The streaming endpoint (api.py lines 73-237)

`run_crew_with_status` publishes a fixed prelude of status events, then
the events emitted while the crew executes (one `task_completed` and one
`progress` event per completed task, from `task_progress_callback`), then
either `completed`/`done` or, when the executor call
`loop.run_in_executor(None, lambda: crew.kickoff(inputs=inputs))` raises,
`error`/`done`.  A Python exception is its message together with
`traceback.format_exc()`. -/

structure PyExn where
  msg : String
  traceback : String := ""
  deriving DecidableEq, Repr

/-- The quality-control fields of the request that appear in the relayed
status messages (api.py lines 139-143). -/
structure ApiInputs where
  depth_level : ℤ
  quality_threshold : ℚ
  enable_fact_checking : Bool
  deriving DecidableEq, Repr

def qualityControlMessage (inp : ApiInputs) : String :=
  "Quality Control: Depth Level " ++ toString inp.depth_level ++
    "/5, Quality Threshold " ++ toString inp.quality_threshold ++
    ", Fact Checking " ++
    (if inp.enable_fact_checking then "Enabled" else "Disabled")

/-- The four status events published before the executor call
(api.py lines 113-117, 124-128, 139-143, 195-199). -/
def preEvents (inp : ApiInputs) : List Event :=
  [{ type := "started",
     message := "Initializing Deep Research Crew with 9 agents and 12 tasks...",
     agent := "System" },
   { type := "system",
     message := "Loading specialized agents: Research Lead, Literature Miner, Senior Analyst, Report Composer, Data Validator, Cross-Reference Specialist, Methodology Critic, Citation Expert, Evidence Evaluator",
     agent := "System" },
   { type := "system", message := qualityControlMessage inp,
     agent := "System" },
   { type := "execution_started",
     message := "Beginning deep research execution...",
     agent := "System" }]

/-- The two events `task_progress_callback` (api.py lines 167-175)
publishes for each completed task, for the whole sequence of task outputs
observed during execution; `count` is the number of previously completed
tasks. -/
def midRunEvents : List String → ℕ → List Event
  | [], _ => []
  | o :: rest, count =>
      { type := "task_completed",
        message := "Task completed: " ++ o } ::
      { type := "progress",
        message := "Progress: " ++ toString (count + 1) ++
          "/12 tasks completed" } ::
      midRunEvents rest (count + 1)

def completedEvent (result : String) : Event :=
  { type := "completed",
    message := "Deep research complete! Generated comprehensive report with quality metrics.",
    result := result, agent := "System" }

def doneEvent : Event := { type := "done" }

/-- The event published by the `except` branch of `run_crew_with_status`
(api.py lines 218-222). -/
def kickoffErrorEvent (e : PyExn) : Event :=
  { type := "error", message := e.msg, details := e.traceback }

/-- The full sequence of events `run_crew_with_status` puts on the status
queue, given the outcomes of the tasks completed during execution and of
the executor call itself. -/
def run_crew_with_status (inp : ApiInputs) (taskOutputs : List String)
    (kickoff : Except PyExn String) : List Event :=
  preEvents inp ++ midRunEvents taskOutputs 0 ++
    (match kickoff with
     | .ok result => [completedEvent result, doneEvent]
     | .error e => [kickoffErrorEvent e, doneEvent])

/-! ## The module-level queue (api.py line 49)

`status_queue = asyncio.Queue()` is created once at module import time;
`run_crew_with_status` closes over it and every `StreamingResponse`
returned by `stream_research` wraps `status_event_generator()`, which
reads from that same module-level queue. -/

abbrev ApiQueue := List Event

/-- The producer side of `stream_research` (api.py line 227): the
background task of the request publishes its run's events onto the
module-level queue, after whatever the queue already holds. -/
def stream_research_publish (st : ApiQueue) (inp : ApiInputs)
    (taskOutputs : List String) (kickoff : Except PyExn String) : ApiQueue :=
  st ++ run_crew_with_status inp taskOutputs kickoff

/-- The consumer side of `stream_research` (api.py lines 230-237): the
SSE response handed to the requesting connection is
`status_event_generator()` over the module-level queue.  The request's
own identity (`query`, modelled as `_req`) plays no part. -/
def stream_research_consume (_req : String) (st : ApiQueue) : List Yield :=
  status_event_generator (st.map .event)

def apiInputsDefault : ApiInputs :=
  { depth_level := 3, quality_threshold := 7/10,
    enable_fact_checking := true }

/-- C2 counterexample: request `"A"` runs to completion (result
`"result-A"`) publishing onto the fresh module-level queue; the consumer
stream attached to the distinct request `"B"` then contains request
`"A"`'s `completed` event — data of one request appearing in the other
request's consumer stream. -/
theorem event_of_one_request_in_other_stream :
    "A" ≠ "B" ∧
    Yield.data (completedEvent "result-A") ∈
      stream_research_consume "B"
        (stream_research_publish [] apiInputsDefault [] (.ok "result-A")) := by
  constructor
  · decide
  · simp [stream_research_consume, stream_research_publish,
      run_crew_with_status, preEvents, midRunEvents,
      status_event_generator, completedEvent, doneEvent]

/-- C2 amended: concurrent requests share the single module-level status
queue, and the consumer stream attached to a request is a function of
that shared queue alone — two distinct concurrent requests observe the
very same stream, so events published by one request's run are delivered
to whichever request's consumer reads the queue. -/
theorem consumer_stream_ignores_request (reqA reqB : String)
    (st : ApiQueue) (_h : reqA ≠ reqB) :
    stream_research_consume reqA st = stream_research_consume reqB st := by
  rfl

theorem consumer_stream_ignores_request_witness :
    "A" ≠ "B" ∧
    stream_research_consume "A" [doneEvent] =
      stream_research_consume "B" [doneEvent] :=
  ⟨by decide,
   consumer_stream_ignores_request "A" "B" [doneEvent] (by decide)⟩

/-! ## The phase controller (main.py lines 19-109)

`run()` executes three phases in order: the research crew, then — only
when `enable_iterative_refinement` holds and the score is below the
threshold — up to `max_iterations` refinement-crew invocations, then the
report crew.  Each `kickoff` is an opaque external executor call that
either raises or returns a result whose `.pydantic` field is the
structured report (possibly absent). -/

structure QualityReport where
  overall_quality_score : ℚ
  deriving DecidableEq, Repr

structure RefinementReport where
  updated_quality_score : ℚ
  deriving DecidableEq, Repr

inductive Phase where
  | research
  | refining
  | reporting
  deriving DecidableEq, Repr

/-- The inputs of `run()` that drive its control flow
(main.py lines 33-38). -/
structure RunInputs where
  quality_threshold : ℚ
  enable_iterative_refinement : Bool
  max_iterations : ℤ
  deriving DecidableEq, Repr

/-- main.py line 109: every caught exception is re-raised wrapped in this
message. -/
def errWrap (e : PyExn) : String :=
  "An error occurred while running the crew: " ++ e.msg

/-- The `while` loop of main.py lines 74-87: while iterations remain and
the score is below the threshold, invoke the refinement crew for the next
(1-based) iteration and, when it yields a structured report, adopt its
updated score.  Returns the number of refinement invocations performed
together with either the final score or the exception a refinement
kickoff raised. -/
def refineLoop (threshold : ℚ)
    (refine : ℕ → Except PyExn (Option RefinementReport)) :
    ℕ → ℕ → ℚ → ℕ × Except PyExn ℚ
  | 0, _, q => (0, .ok q)
  | rem + 1, it, q =>
      if q < threshold then
        match refine (it + 1) with
        | .error e => (1, .error e)
        | .ok rep =>
            let q2 := match rep with
              | some r => r.updated_quality_score
              | none => q
            let p := refineLoop threshold refine rem (it + 1) q2
            (p.1 + 1, p.2)
      else (0, .ok q)

/-- The observable outcome of one `run()`: its return value (or wrapped
exception), the sequence of phases whose executor was invoked, and the
quality score as of the end of the refinement section (absent when an
exception aborted the run before that point). -/
structure RunResult where
  result : Except String String
  phases : List Phase
  final_score : Option ℚ
  deriving Repr

/-- main.py line 65: `quality_report.overall_quality_score if
quality_report else 0.0`. -/
def initialScore : Option QualityReport → ℚ
  | some r => r.overall_quality_score
  | none => 0

/-- The conditional refinement section of `run()` (main.py lines 69-87):
entered only when refinement is enabled and the research score is below
the threshold. -/
def refineSection (inp : RunInputs)
    (refine : ℕ → Except PyExn (Option RefinementReport)) (q : ℚ) :
    ℕ × Except PyExn ℚ :=
  if inp.enable_iterative_refinement ∧ q < inp.quality_threshold then
    refineLoop inp.quality_threshold refine inp.max_iterations.toNat 0 q
  else (0, .ok q)

/-- Embeds `run()` (main.py lines 56-109) over the outcomes of the three
external executors.  `research` is the research-crew kickoff
(its `.pydantic` quality report may be `None`, scoring `0.0`), `refine k`
the `k`-th refinement-crew kickoff and `report` the report-crew
kickoff. -/
def MainModule.run (inp : RunInputs)
    (research : Except PyExn (Option QualityReport))
    (refine : ℕ → Except PyExn (Option RefinementReport))
    (report : Except PyExn String) : RunResult :=
  match research with
  | .error e =>
      { result := .error (errWrap e), phases := [.research],
        final_score := none }
  | .ok qrep =>
      let p := refineSection inp refine (initialScore qrep)
      match p.2 with
      | .error e =>
          { result := .error (errWrap e),
            phases := .research :: List.replicate p.1 .refining,
            final_score := none }
      | .ok qf =>
          match report with
          | .error e =>
              { result := .error (errWrap e),
                phases := (.research :: List.replicate p.1 .refining) ++
                  [.reporting],
                final_score := some qf }
          | .ok r =>
              { result := .ok r,
                phases := (.research :: List.replicate p.1 .refining) ++
                  [.reporting],
                final_score := some qf }

theorem refineLoop_fst_le (th : ℚ)
    (refine : ℕ → Except PyExn (Option RefinementReport)) :
    ∀ fuel it q, (refineLoop th refine fuel it q).1 ≤ fuel := by
  intro fuel
  induction fuel with
  | zero => intro it q; simp [refineLoop]
  | succ n ih =>
      intro it q
      simp only [refineLoop]
      split
      · cases hr : refine (it + 1) with
        | error e => simp
        | ok rep =>
            simp only []
            exact Nat.succ_le_succ (ih _ _)
      · simp

theorem refineSection_fst_le (inp : RunInputs)
    (refine : ℕ → Except PyExn (Option RefinementReport)) (q : ℚ) :
    (refineSection inp refine q).1 ≤ inp.max_iterations.toNat := by
  unfold refineSection
  split
  · exact refineLoop_fst_le _ _ _ _ _
  · simp

theorem run_phase_bounds (inp : RunInputs)
    (research : Except PyExn (Option QualityReport))
    (refine : ℕ → Except PyExn (Option RefinementReport))
    (report : Except PyExn String) :
    (MainModule.run inp research refine report).phases.count Phase.refining ≤
        inp.max_iterations.toNat ∧
      (MainModule.run inp research refine report).phases.length ≤
        inp.max_iterations.toNat + 2 := by
  cases research with
  | error e => simp [MainModule.run]
  | ok qrep =>
      have hp := refineSection_fst_le inp refine (initialScore qrep)
      simp only [MainModule.run]
      split
      · constructor
        · simpa [List.count_cons, List.count_replicate] using hp
        · simp only [List.length_cons, List.length_replicate]
          omega
      · cases report with
        | error e =>
            constructor
            · simpa [List.count_cons, List.count_append,
                List.count_replicate] using hp
            · simp only [List.length_append, List.length_cons,
                List.length_replicate, List.length_nil]
              omega
        | ok r =>
            constructor
            · simpa [List.count_cons, List.count_append,
                List.count_replicate] using hp
            · simp only [List.length_append, List.length_cons,
                List.length_replicate, List.length_nil]
              omega

/-- C6: For every configuration with `max_iterations ≥ 0` and every
sequence of quality scores returned by the executor, the phase controller
performs at most `max_iterations` refinement invocations, and the whole
run terminates within `max_iterations + 2` external executor (phase)
invocations. -/
theorem run_refinements_and_phases_bounded (inp : RunInputs)
    (research : Except PyExn (Option QualityReport))
    (refine : ℕ → Except PyExn (Option RefinementReport))
    (report : Except PyExn String) (h : 0 ≤ inp.max_iterations) :
    ((MainModule.run inp research refine report).phases.count
        Phase.refining : ℤ) ≤ inp.max_iterations ∧
      (((MainModule.run inp research refine report).phases.length : ℤ) ≤
        inp.max_iterations + 2) := by
  obtain ⟨h1, h2⟩ := run_phase_bounds inp research refine report
  omega

theorem run_refinements_and_phases_bounded_witness :
    (0 : ℤ) ≤ 2 ∧
    (((MainModule.run
          { quality_threshold := 7/10, enable_iterative_refinement := true,
            max_iterations := 2 }
          (.ok (some { overall_quality_score := 1/2 }))
          (fun _ => .ok (some { updated_quality_score := 1/2 }))
          (.ok "report")).phases.count Phase.refining : ℤ) ≤ 2 ∧
      (((MainModule.run
          { quality_threshold := 7/10, enable_iterative_refinement := true,
            max_iterations := 2 }
          (.ok (some { overall_quality_score := 1/2 }))
          (fun _ => .ok (some { updated_quality_score := 1/2 }))
          (.ok "report")).phases.length : ℤ) ≤ 2 + 2)) :=
  ⟨by decide,
   run_refinements_and_phases_bounded
     { quality_threshold := 7/10, enable_iterative_refinement := true,
       max_iterations := 2 }
     (.ok (some { overall_quality_score := 1/2 }))
     (fun _ => .ok (some { updated_quality_score := 1/2 }))
     (.ok "report") (by decide)⟩

/-- C7: If `enable_iterative_refinement` is false, the phase controller
never enters the Refining state — the refinement executor is never
invoked — regardless of the quality score returned by the Research
phase. -/
theorem refinement_disabled_never_refines (inp : RunInputs)
    (research : Except PyExn (Option QualityReport))
    (refine : ℕ → Except PyExn (Option RefinementReport))
    (report : Except PyExn String)
    (h : inp.enable_iterative_refinement = false) :
    Phase.refining ∉ (MainModule.run inp research refine report).phases := by
  cases research with
  | error e => simp [MainModule.run]
  | ok qrep =>
      simp only [MainModule.run]
      have hs : refineSection inp refine (initialScore qrep) =
          (0, .ok (initialScore qrep)) := by
        simp [refineSection, h]
      split
      · simp_all
      · cases report <;> simp_all

theorem refinement_disabled_never_refines_witness :
    ({ quality_threshold := 7/10, enable_iterative_refinement := false,
        max_iterations := 2 : RunInputs }.enable_iterative_refinement
      = false) ∧
    Phase.refining ∉
      (MainModule.run
        { quality_threshold := 7/10, enable_iterative_refinement := false,
          max_iterations := 2 }
        (.ok (some { overall_quality_score := 1/10 }))
        (fun _ => .ok (some { updated_quality_score := 1 }))
        (.ok "report")).phases :=
  ⟨rfl,
   refinement_disabled_never_refines
     { quality_threshold := 7/10, enable_iterative_refinement := false,
       max_iterations := 2 }
     (.ok (some { overall_quality_score := 1/10 }))
     (fun _ => .ok (some { updated_quality_score := 1 }))
     (.ok "report") rfl⟩

/-- C8: With `quality_threshold = 0.7`, an initial Research-phase quality
score of `0.5`, `max_iterations = 2`, refinement enabled, and each
refinement invocation returning a score `0.1` higher than the previous
one, the phase controller performs exactly 2 refinement invocations and
then proceeds to the Reporting phase with final score `0.7` (exact
rational arithmetic). -/
theorem refinement_scenario_two_iterations :
    (MainModule.run
        { quality_threshold := 7/10, enable_iterative_refinement := true,
          max_iterations := 2 }
        (.ok (some { overall_quality_score := 1/2 }))
        (fun k => .ok (some { updated_quality_score := 1/2 + (k : ℚ)/10 }))
        (.ok "final report")).phases =
      [.research, .refining, .refining, .reporting] ∧
    (MainModule.run
        { quality_threshold := 7/10, enable_iterative_refinement := true,
          max_iterations := 2 }
        (.ok (some { overall_quality_score := 1/2 }))
        (fun k => .ok (some { updated_quality_score := 1/2 + (k : ℚ)/10 }))
        (.ok "final report")).final_score = some (7/10) := by
  constructor <;>
    norm_num [MainModule.run, refineSection, refineLoop, initialScore,
      List.replicate]

theorem midRunEvents_types (outs : List String) :
    ∀ n, (midRunEvents outs n).all
      (fun ev => ev.type == "task_completed" || ev.type == "progress") =
        true := by
  induction outs with
  | nil => intro n; simp [midRunEvents]
  | cons o rest ih => intro n; simp [midRunEvents, ih]

theorem midRunEvents_mem_types {outs : List String} {n : ℕ} {ev : Event}
    (h : ev ∈ midRunEvents outs n) :
    ev.type = "task_completed" ∨ ev.type = "progress" := by
  have := midRunEvents_types outs n
  rw [List.all_eq_true] at this
  have h2 := this ev h
  rcases Bool.or_eq_true_iff.mp h2 with h3 | h3
  · exact Or.inl (by simpa using h3)
  · exact Or.inr (by simpa using h3)

theorem preEvents_mem_types {inp : ApiInputs} {ev : Event}
    (h : ev ∈ preEvents inp) :
    ev.type = "started" ∨ ev.type = "system" ∨
      ev.type = "execution_started" := by
  simp only [preEvents, List.mem_cons] at h
  rcases h with h | h | h | h | h
  · simp [h]
  · simp [h]
  · simp [h]
  · simp [h]
  · simp at h

/-- The generator relays every event of a sequence that contains no
`done`-typed event, in order, and keeps running. -/
theorem status_event_generator_live (es : List Event)
    (h : es.all (fun ev => !(ev.type == "done")) = true) :
    status_event_generator (es.map .event) = es.map Yield.data := by
  induction es with
  | nil => simp [status_event_generator]
  | cons ev rest ih =>
      rw [List.all_cons, Bool.and_eq_true] at h
      obtain ⟨h1, h2⟩ := h
      have hne : ¬ ev.type = "done" := by simpa using h1
      simp [status_event_generator, hne, ih h2]

/-- C5: If the external executor raises during the Research phase, the
streaming client receives exactly one `error` event followed by a `done`
event (the events before them are the prelude and per-task progress
events, none of type `error`), and neither the Refining phase nor the
Reporting phase is ever invoked for that run. -/
theorem research_raise_one_error_then_done_no_refine_report
    (inp : ApiInputs) (taskOutputs : List String) (e : PyExn)
    (minp : RunInputs)
    (refine : ℕ → Except PyExn (Option RefinementReport))
    (report : Except PyExn String) :
    run_crew_with_status inp taskOutputs (.error e) =
        (preEvents inp ++ midRunEvents taskOutputs 0) ++
          [kickoffErrorEvent e, doneEvent] ∧
      (preEvents inp ++ midRunEvents taskOutputs 0).countP
          (fun ev => ev.type == "error") = 0 ∧
      status_event_generator
          ((run_crew_with_status inp taskOutputs (.error e)).map .event) =
        ((preEvents inp ++ midRunEvents taskOutputs 0).map Yield.data) ++
          [.data (kickoffErrorEvent e), .data doneEvent] ∧
      (MainModule.run minp (.error e) refine report).phases =
        [.research] := by
  have hlive : (preEvents inp ++ midRunEvents taskOutputs 0).all
      (fun ev => !(ev.type == "done")) = true := by
    rw [List.all_eq_true]
    intro ev hev
    rcases List.mem_append.mp hev with h | h
    · rcases preEvents_mem_types h with h2 | h2 | h2 <;> simp [h2]
    · rcases midRunEvents_mem_types h with h2 | h2 <;> simp [h2]
  refine ⟨by simp [run_crew_with_status], ?_, ?_, ?_⟩
  · rw [List.countP_eq_zero]
    intro ev hev
    rcases List.mem_append.mp hev with h | h
    · rcases preEvents_mem_types h with h2 | h2 | h2 <;> simp [h2]
    · rcases midRunEvents_mem_types h with h2 | h2 <;> simp [h2]
  · have hsplit : run_crew_with_status inp taskOutputs (.error e) =
        (preEvents inp ++ midRunEvents taskOutputs 0) ++
          [kickoffErrorEvent e, doneEvent] := by
      simp [run_crew_with_status]
    rw [hsplit, List.map_append, status_event_generator_append]
    · rw [status_event_generator_live _ hlive]
      rfl
    · rw [List.all_eq_true]
      intro o ho
      rcases List.mem_map.mp ho with ⟨ev, hev, rfl⟩
      have h2 := List.all_eq_true.mp hlive ev hev
      simpa [nonTerminal] using h2
  · simp [MainModule.run]

/-! ## The fact checker (tools/analysis/fact_checker.py)

Only the two `Evidence` fields `_determine_confidence` reads are
modelled; `relevance_score` (a float in `[0,1]`) is modelled as a
rational. -/

structure Evidence where
  relevance_score : ℚ
  supports_claim : Bool
  deriving DecidableEq, Repr

/-- Embeds `ConfidenceLevel` (models/claim.py lines 18-23). -/
inductive ConfidenceLevel where
  | verified
  | partially_verified
  | contradicted
  | unknown
  deriving DecidableEq, Repr

/-- Embeds `FactCheckerTool._determine_confidence` (fact_checker.py lines
151-171).  `supporting` is `sum(1 for e in evidence_list if
e.supports_claim)`, `contradicting` is `len(evidence_list) - supporting`,
and `avg_relevance` is the mean relevance over the whole list. -/
def determine_confidence (evidence_list : List Evidence) :
    ConfidenceLevel :=
  if evidence_list.isEmpty then .unknown
  else if 3 ≤ evidence_list.countP (·.supports_claim) ∧
      (6/10 : ℚ) ≤
        (evidence_list.map (·.relevance_score)).sum /
          evidence_list.length then
    .verified
  else if 2 ≤ evidence_list.countP (·.supports_claim) ∧
      evidence_list.length - evidence_list.countP (·.supports_claim) = 0 then
    .partially_verified
  else if evidence_list.countP (·.supports_claim) <
      evidence_list.length - evidence_list.countP (·.supports_claim) then
    .contradicted
  else .unknown

theorem countP_not_supports (l : List Evidence) :
    l.countP (fun e => !e.supports_claim) =
      l.length - l.countP (·.supports_claim) := by
  have h := l.length_eq_countP_add_countP (fun e => e.supports_claim)
  simp only [decide_not, Bool.decide_eq_true] at h
  omega

/-- C10: `_determine_confidence` returns `unknown` on the empty evidence
list; it returns `verified` only when at least 3 items support the claim
and the average relevance over the whole list is at least `0.6`; and it
returns `contradicted` only when the contradicting items strictly
outnumber the supporting ones. -/
theorem determine_confidence_policy :
    determine_confidence [] = .unknown ∧
    (∀ l : List Evidence, determine_confidence l = .verified →
      3 ≤ l.countP (·.supports_claim) ∧
        (6/10 : ℚ) ≤ (l.map (·.relevance_score)).sum / l.length) ∧
    (∀ l : List Evidence, determine_confidence l = .contradicted →
      l.countP (·.supports_claim) <
        l.countP (fun e => !e.supports_claim)) := by
  refine ⟨rfl, ?_, ?_⟩
  · intro l h
    unfold determine_confidence at h
    split_ifs at h with h1 h2 h3 h4
    exact h2
  · intro l h
    rw [countP_not_supports]
    unfold determine_confidence at h
    split_ifs at h with h1 h2 h3 h4
    exact h4

/-- Three supporting items of relevance `0.7`. -/
def evidenceAllSupport : List Evidence :=
  [{ relevance_score := 7/10, supports_claim := true },
   { relevance_score := 7/10, supports_claim := true },
   { relevance_score := 7/10, supports_claim := true }]

/-- One supporting and two contradicting items. -/
def evidenceMostContradict : List Evidence :=
  [{ relevance_score := 1/2, supports_claim := true },
   { relevance_score := 1/2, supports_claim := false },
   { relevance_score := 1/2, supports_claim := false }]

theorem determine_confidence_policy_witness :
    (3 ≤ evidenceAllSupport.countP (·.supports_claim) ∧
      (6/10 : ℚ) ≤
        (evidenceAllSupport.map (·.relevance_score)).sum /
          evidenceAllSupport.length) ∧
    evidenceMostContradict.countP (·.supports_claim) <
      evidenceMostContradict.countP (fun e => !e.supports_claim) :=
  ⟨determine_confidence_policy.2.1 evidenceAllSupport
     (by norm_num [determine_confidence, evidenceAllSupport]),
   determine_confidence_policy.2.2 evidenceMostContradict
     (by norm_num [determine_confidence, evidenceMostContradict])⟩

/-! ## The claim extractor (tools/analysis/claim_extractor.py)

`_split_into_sentences` splits the text at every match of the Python
regular expression `[.!?]+\s+` (one or more sentence punctuation marks
followed by one or more whitespace characters; both character classes are
disjoint, so the backtracking engine always consumes the maximal
punctuation run followed by the maximal whitespace run), strips each
piece, and keeps the pieces longer than 20 characters. -/

/-- The whitespace class: Python's `\s` / `str.strip` default set
(ASCII). -/
def pyIsSpace (c : Char) : Bool :=
  c == ' ' || c == '\t' || c == '\n' || c == '\r' ||
    c == Char.ofNat 11 || c == Char.ofNat 12

/-- Python `str.strip()`: drop leading and trailing whitespace. -/
def pyStripList (l : List Char) : List Char :=
  ((l.dropWhile pyIsSpace).reverse.dropWhile pyIsSpace).reverse

def pyStrip (s : String) : String :=
  String.mk (pyStripList s.data)

/-- The character class `[.!?]`. -/
def isSentencePunct (c : Char) : Bool :=
  c == '.' || c == '!' || c == '?'

/-- A match of `[.!?]+\s+` starts at the head of `l`: the head is
sentence punctuation and the maximal punctuation run from it is followed
by a whitespace character. -/
def sentenceBreakAt : List Char → Bool
  | c :: rest =>
      isSentencePunct c &&
        (match rest.dropWhile isSentencePunct with
         | d :: _ => pyIsSpace d
         | [] => false)
  | [] => false

/-- Python `re.split(r'[.!?]+\s+', text)`: scan left to right; at the leftmost
position where a match starts, emit the accumulated segment and skip the
matched punctuation and whitespace runs. -/
def re_split_sentences (acc : List Char) : List Char → List (List Char)
  | [] => [acc.reverse]
  | c :: rest =>
      if sentenceBreakAt (c :: rest) then
        acc.reverse ::
          re_split_sentences []
            ((rest.dropWhile isSentencePunct).dropWhile pyIsSpace)
      else
        re_split_sentences (c :: acc) rest
termination_by l => l.length
decreasing_by
  · simp only [List.length_cons]
    exact Nat.lt_succ_of_le
      (le_trans (List.IsSuffix.length_le (List.dropWhile_suffix _))
        (List.IsSuffix.length_le (List.dropWhile_suffix _)))
  · simp only [List.length_cons]
    exact Nat.lt_succ_self _

/-- Embeds `ClaimExtractorTool._split_into_sentences` (claim_extractor.py lines
102-106). -/
def split_into_sentences (text : String) : List String :=
  ((re_split_sentences [] text.data).map
      (fun l => pyStrip (String.mk l))).filter
    (fun s => 20 < s.length)

theorem dropWhile_head_false (p : Char → Bool) :
    ∀ (l : List Char) (c : Char) (t : List Char),
      List.dropWhile p l = c :: t → p c = false := by
  intro l
  induction l with
  | nil => intro c t h; simp [List.dropWhile] at h
  | cons d r ih =>
      intro c t h
      by_cases hd : p d = true
      · rw [List.dropWhile_cons, if_pos hd] at h
        exact ih c t h
      · rw [List.dropWhile_cons, if_neg hd] at h
        injection h with h1 h2
        subst h1
        simpa using hd

theorem head_dropWhile_false (p : Char → Bool) (l : List Char) (c : Char)
    (h : (List.dropWhile p l).head? = some c) : p c = false := by
  cases hl : List.dropWhile p l with
  | nil => rw [hl] at h; simp at h
  | cons d t =>
      rw [hl, List.head?_cons] at h
      injection h with h1
      subst h1
      exact dropWhile_head_false p l _ _ hl

theorem dropWhile_dropWhile (p : Char → Bool) (l : List Char) :
    (l.dropWhile p).dropWhile p = l.dropWhile p := by
  cases hl : l.dropWhile p with
  | nil => rfl
  | cons c t =>
      have hc : p c = false := dropWhile_head_false p l c t hl
      simp [List.dropWhile_cons, hc]

theorem pyStripList_idem (l : List Char) :
    pyStripList (pyStripList l) = pyStripList l := by
  unfold pyStripList
  set a := l.dropWhile pyIsSpace with ha
  set b := a.reverse.dropWhile pyIsSpace with hb
  have hbb : b.dropWhile pyIsSpace = b := by
    rw [hb]
    exact dropWhile_dropWhile _ _
  have hm : b.reverse.dropWhile pyIsSpace = b.reverse := by
    cases hc : b.reverse with
    | nil => rfl
    | cons c t =>
        have hbne : b ≠ [] := by
          intro h
          rw [h] at hc
          simp at hc
        have h2 : b.getLast? = some c := by
          rw [← List.head?_reverse, hc, List.head?_cons]
        have h3 : a.reverse.getLast? = some c := by
          conv_lhs =>
            rw [← List.takeWhile_append_dropWhile (p := pyIsSpace)
              (l := a.reverse)]
          rw [List.getLast?_append_of_ne_nil _ (hb ▸ hbne), ← hb]
          exact h2
        have h4 : a.head? = some c := by
          rw [List.getLast?_reverse] at h3
          exact h3
        have hc2 : pyIsSpace c = false := by
          refine head_dropWhile_false pyIsSpace l c ?_
          rw [← ha]
          exact h4
        simp [List.dropWhile_cons, hc2]
  rw [hm, List.reverse_reverse, hbb]

theorem pyStrip_idem (s : String) : pyStrip (pyStrip s) = pyStrip s := by
  unfold pyStrip
  rw [pyStripList_idem]

/-! ## A small regular-expression engine

`_identify_claim_type` tests each sentence against a fixed set of Python
regular expressions via `re.search` (does a match occur anywhere in the
string?).  The patterns only use literals, character classes,
alternation, option and repetition, so they are represented by a
classical regular-expression syntax and decided with Brzozowski
derivatives. -/

inductive RE where
  | eps
  | cls (p : Char → Bool)
  | cat (a b : RE)
  | alt (a b : RE)
  | star (a : RE)

/-- The empty language. -/
def RE.emp : RE := .cls (fun _ => false)

def RE.nullable : RE → Bool
  | .eps => true
  | .cls _ => false
  | .cat a b => a.nullable && b.nullable
  | .alt a b => a.nullable || b.nullable
  | .star _ => true

def RE.deriv : RE → Char → RE
  | .eps, _ => .emp
  | .cls p, c => if p c then .eps else .emp
  | .cat a b, c =>
      if a.nullable then .alt (.cat (a.deriv c) b) (b.deriv c)
      else .cat (a.deriv c) b
  | .alt a b, c => .alt (a.deriv c) (b.deriv c)
  | .star a, c => .cat (a.deriv c) (.star a)

/-- Does some prefix of the input match? -/
def RE.matchesSome : RE → List Char → Bool
  | r, [] => r.nullable
  | r, c :: cs => r.nullable || RE.matchesSome (r.deriv c) cs

/-- Python `re.search`: does a match start at some position of the input? -/
def RE.find (r : RE) : List Char → Bool
  | [] => r.nullable
  | c :: cs => r.matchesSome (c :: cs) || RE.find r cs

/-- A literal string pattern. -/
def RE.lit (s : String) : RE :=
  s.data.foldr (fun c r => .cat (.cls (fun d => d == c)) r) .eps

/-- Pattern `r+`. -/
def RE.plus (r : RE) : RE := .cat r (.star r)

/-- Pattern `r?`. -/
def RE.opt (r : RE) : RE := .alt r .eps

/-- Alternation `a|b|...` over a list of alternatives. -/
def RE.anyOf (rs : List RE) : RE := rs.foldr .alt .emp

/-- Python `\d` (ASCII digits). -/
def digitRE : RE := .cls Char.isDigit

/-- Python `\s`. -/
def wsRE : RE := .cls pyIsSpace

/-- Pattern `\d+\.?\d*\s*%`. -/
def percentRE : RE :=
  .cat digitRE.plus
    (.cat (RE.opt (RE.lit "."))
      (.cat digitRE.star (.cat wsRE.star (RE.lit "%"))))

/-- Pattern `\d+\.?\d*\s*(?:times|fold)`. -/
def timesFoldRE : RE :=
  .cat digitRE.plus
    (.cat (RE.opt (RE.lit "."))
      (.cat digitRE.star
        (.cat wsRE.star (.alt (RE.lit "times") (RE.lit "fold")))))

/-- Pattern `accuracy|precision|recall|f1|score|error|rate`. -/
def metricWordsRE : RE :=
  RE.anyOf [RE.lit "accuracy", RE.lit "precision", RE.lit "recall",
    RE.lit "f1", RE.lit "score", RE.lit "error", RE.lit "rate"]

/-- Pattern `improved?|increased?|decreased?|reduced?|better|worse`. -/
def changeWordsRE : RE :=
  RE.anyOf [.cat (RE.lit "improve") (RE.opt (RE.lit "d")),
    .cat (RE.lit "increase") (RE.opt (RE.lit "d")),
    .cat (RE.lit "decrease") (RE.opt (RE.lit "d")),
    .cat (RE.lit "reduce") (RE.opt (RE.lit "d")),
    RE.lit "better", RE.lit "worse"]

/-- Embeds `numerical_patterns` (claim_extractor.py lines 113-118). -/
def numerical_patterns : List RE :=
  [percentRE, timesFoldRE, metricWordsRE, changeWordsRE]

/-- Embeds `comparative_patterns` (claim_extractor.py lines 125-129). -/
def comparative_patterns : List RE :=
  [RE.anyOf [RE.lit "better than", RE.lit "worse than",
      RE.lit "faster than", RE.lit "slower than"],
   RE.anyOf [RE.lit "outperform", RE.lit "surpass", RE.lit "exceed"],
   RE.anyOf [RE.lit "compared to", RE.lit "in comparison",
      RE.lit "versus", RE.lit "vs."]]

/-- Embeds `experimental_patterns` (claim_extractor.py lines 135-139). -/
def experimental_patterns : List RE :=
  [.cat (RE.lit "we ")
      (RE.anyOf [RE.lit "found", RE.lit "observed", RE.lit "discovered",
        RE.lit "showed", RE.lit "demonstrated"]),
   .cat (RE.lit "result")
      (.cat (RE.opt (RE.lit "s"))
        (.cat (RE.lit " ")
          (RE.anyOf [RE.lit "show", RE.lit "indicate", RE.lit "suggest",
            RE.lit "reveal"]))),
   RE.anyOf [RE.lit "experiment", RE.lit "evaluation", RE.lit "test",
      RE.lit "benchmark"]]

/-- Embeds `theoretical_patterns` (claim_extractor.py lines 145-149). -/
def theoretical_patterns : List RE :=
  [.cat (RE.lit "we ")
      (RE.anyOf [RE.lit "propose", RE.lit "introduce", RE.lit "present",
        RE.lit "define"]),
   RE.anyOf [RE.lit "theorem", RE.lit "lemma", RE.lit "proposition",
      RE.lit "hypothesis"],
   RE.anyOf [RE.lit "can be shown", RE.lit "it follows that",
      RE.lit "therefore"]]

/-- Embeds `ClaimType` (models/claim.py lines 9-15). -/
inductive ClaimType where
  | experimental
  | theoretical
  | comparative
  | numerical
  | qualitative
  deriving DecidableEq, Repr

/-- Embeds `ClaimExtractorTool._identify_claim_type` (claim_extractor.py lines
108-154): the patterns are searched in the lowercased sentence, except
that the percentage pattern deciding `NUMERICAL` is searched in the
original sentence; when a numerical pattern matches but the percentage
pattern does not, control falls through to the later checks. -/
def identify_claim_type (sentence : String) : Option ClaimType :=
  let sl := (sentence.map Char.toLower).data
  if (numerical_patterns.any (fun r => r.find sl)) &&
      percentRE.find sentence.data then
    some .numerical
  else if comparative_patterns.any (fun r => r.find sl) then
    some .comparative
  else if experimental_patterns.any (fun r => r.find sl) then
    some .experimental
  else if theoretical_patterns.any (fun r => r.find sl) then
    some .theoretical
  else none

/-- A claim as built by `execute` (the fields relevant to the control
flow and output contract; provenance, entities, metrics and context do
not influence either). -/
structure PyClaim where
  claim_id : String
  text : String
  claim_type : ClaimType
  deriving DecidableEq, Repr

/-- The `for` loop of `execute` (claim_extractor.py lines 62-94): for
each sentence whose claim type is identified, append a claim whose text
is the stripped sentence and whose id numbers the claims from 1; stop as
soon as the claims list has reached `max_claims` entries (the bound is
checked after appending). -/
def extract_claims (source_id : String) (max_claims : ℕ) :
    List String → List PyClaim → List PyClaim
  | [], claims => claims
  | s :: rest, claims =>
      match identify_claim_type s with
      | none => extract_claims source_id max_claims rest claims
      | some ct =>
          let claims2 := claims ++
            [{ claim_id :=
                 source_id ++ "_claim_" ++ toString (claims.length + 1),
               text := pyStrip s, claim_type := ct }]
          if max_claims ≤ claims2.length then claims2
          else extract_claims source_id max_claims rest claims2

/-- The dictionary returned by `execute` (claim_extractor.py lines
96-100). -/
structure ExtractResult where
  claims : List PyClaim
  num_claims : ℕ
  num_sentences_analyzed : ℕ
  deriving Repr

/-- Embeds `ClaimExtractorTool.execute` (claim_extractor.py lines 36-100). -/
def ClaimExtractorTool.execute (text : String) (source_id : String)
    (max_claims : ℕ) : ExtractResult :=
  let sentences := split_into_sentences text
  let claims := extract_claims source_id max_claims sentences []
  { claims := claims, num_claims := claims.length,
    num_sentences_analyzed := sentences.length }

theorem mem_split_into_sentences {text s : String}
    (h : s ∈ split_into_sentences text) :
    pyStrip s = s ∧ 20 < s.length := by
  unfold split_into_sentences at h
  obtain ⟨hmem, hlen⟩ := List.mem_filter.mp h
  refine ⟨?_, by simpa using hlen⟩
  obtain ⟨l, -, hl⟩ := List.mem_map.mp hmem
  rw [← hl, pyStrip_idem]

theorem extract_claims_length (sid : String) (m : ℕ) :
    ∀ (ss : List String) (claims : List PyClaim),
      claims.length < m →
      (extract_claims sid m ss claims).length ≤ m := by
  intro ss
  induction ss with
  | nil => intro claims h; simpa [extract_claims] using Nat.le_of_lt h
  | cons s rest ih =>
      intro claims h
      cases hid : identify_claim_type s with
      | none =>
          rw [extract_claims, hid]
          exact ih claims h
      | some ct =>
          rw [extract_claims, hid]
          simp only []
          split
          · simpa using h
          · rename_i hlt
            refine ih _ ?_
            simpa using Nat.lt_of_not_le hlt

theorem extract_claims_text_mem (text sid : String) (m : ℕ) :
    ∀ (ss : List String) (claims : List PyClaim),
      (∀ s ∈ ss, s ∈ split_into_sentences text) →
      (∀ c ∈ claims,
        c.text ∈ split_into_sentences text ∧ 20 < c.text.length) →
      ∀ c ∈ extract_claims sid m ss claims,
        c.text ∈ split_into_sentences text ∧ 20 < c.text.length := by
  intro ss
  induction ss with
  | nil =>
      intro claims _ hcl c hc
      rw [extract_claims] at hc
      exact hcl c hc
  | cons s rest ih =>
      intro claims hss hcl c hc
      have hs : s ∈ split_into_sentences text := hss s (by simp)
      have hrest : ∀ x ∈ rest, x ∈ split_into_sentences text :=
        fun x hx => hss x (by simp [hx])
      obtain ⟨hstrip, hslen⟩ := mem_split_into_sentences hs
      cases hid : identify_claim_type s with
      | none =>
          rw [extract_claims, hid] at hc
          exact ih claims hrest hcl c hc
      | some ct =>
          rw [extract_claims, hid] at hc
          simp only [] at hc
          have hcl2 : ∀ (newc : PyClaim), newc.text = pyStrip s →
              ∀ x ∈ claims ++ [newc],
              x.text ∈ split_into_sentences text ∧ 20 < x.text.length := by
            intro newc hnewc x hx
            rcases List.mem_append.mp hx with hx | hx
            · exact hcl x hx
            · have hx2 : x = newc := by simpa using hx
              rw [hx2, hnewc]
              constructor
              · simpa [hstrip] using hs
              · simpa [hstrip] using hslen
          split at hc
          · exact hcl2 _ rfl c hc
          · exact ih _ hrest (hcl2 _ rfl) c hc

/-- C9: For every input text and every `max_claims ≥ 1`,
`ClaimExtractorTool.execute` returns a claims list of length at most
`max_claims`, the returned `num_claims` field equals the length of that
list, and every returned claim's text is a stripped sentence of the input
(an element of `split_into_sentences`, which are exactly the stripped
split pieces) longer than 20 characters. -/
theorem execute_claims_contract (text source_id : String)
    (max_claims : ℕ) (h : 1 ≤ max_claims) :
    (ClaimExtractorTool.execute text source_id max_claims).claims.length ≤
        max_claims ∧
      (ClaimExtractorTool.execute text source_id max_claims).num_claims =
        (ClaimExtractorTool.execute text source_id
          max_claims).claims.length ∧
      ∀ c ∈ (ClaimExtractorTool.execute text source_id max_claims).claims,
        c.text ∈ split_into_sentences text ∧ 20 < c.text.length := by
  refine ⟨?_, rfl, ?_⟩
  · exact extract_claims_length source_id max_claims _ []
      (by simpa using h)
  · exact extract_claims_text_mem text source_id max_claims _ []
      (fun s hs => hs) (by simp)

/-- A small concrete input for the contract. -/
def demoText : String :=
  "The new model improved accuracy by 30% on the shared benchmark. Nothing else to report here."

theorem execute_claims_contract_witness :
    1 ≤ 1 ∧
    ((ClaimExtractorTool.execute demoText "src1" 1).claims.length ≤ 1 ∧
      (ClaimExtractorTool.execute demoText "src1" 1).num_claims =
        (ClaimExtractorTool.execute demoText "src1" 1).claims.length ∧
      ∀ c ∈ (ClaimExtractorTool.execute demoText "src1" 1).claims,
        c.text ∈ split_into_sentences demoText ∧ 20 < c.text.length) :=
  ⟨by decide, execute_claims_contract demoText "src1" 1 (by decide)⟩
